import Mathlib

/-!
Verification of the retail analytics dashboard core (`src/app.py`): the
synthetic-data generator (`load_data`), the pandas boolean-mask filter
(`filtered_df`, lines 66-71), the groupby/sum/idxmax aggregates
(lines 75-78, 105, 111, 131-133) and the CSV export (lines 120-121).

Dates are modelled as integers (an abstract total order of calendar days,
offsets from the 2025-01-01 epoch); money and prices as rationals.
-/

namespace RetailDashboard

/-- Closed set of regions: `["North America", "Europe", "Asia", "LATAM"]` in `load_data`. -/
inductive Region where
  | NorthAmerica
  | Europe
  | Asia
  | LATAM
deriving DecidableEq

/-- Closed set of categories: `["Electronics", "Clothing", "Home", "Books"]`. -/
inductive Category where
  | Electronics
  | Clothing
  | Home
  | Books
deriving DecidableEq

/-- Closed set of products: `["iPhone", "T-Shirt", "Sofa", "Novel"]`. -/
inductive Product where
  | IPhone
  | TShirt
  | Sofa
  | Novel
deriving DecidableEq

/-- One row of the dataframe built by `load_data` (columns in construction
order: Date, Order_ID, Customer_ID, Region, Category, Product, Quantity,
Unit_Price, Discount, with Revenue appended on line 44). -/
structure OrderRecord where
  date : Int
  orderId : Nat
  customerId : Nat
  region : Region
  category : Category
  product : Product
  quantity : Nat
  unitPrice : ℚ
  discount : ℚ
  revenue : ℚ
deriving DecidableEq

/-- The filter criteria supplied by the sidebar widgets: a date range and
the multiselect region / category lists. -/
structure Criteria where
  startDate : Int
  endDate : Int
  regions : List Region
  categories : List Category

/-- Boolean mask `df['Date'] >= pd.to_datetime(date_range[0])` (app.py line 67). -/
def dateGeMask (ds : List OrderRecord) (c : Criteria) : List Bool :=
  ds.map (fun r => decide (c.startDate ≤ r.date))

/-- Boolean mask `df['Date'] <= pd.to_datetime(date_range[1])` (app.py line 68). -/
def dateLeMask (ds : List OrderRecord) (c : Criteria) : List Bool :=
  ds.map (fun r => decide (r.date ≤ c.endDate))

/-- Boolean mask `df['Region'].isin(regions)` (app.py line 69): membership of the
row's region in the selected list. -/
def regionMask (ds : List OrderRecord) (c : Criteria) : List Bool :=
  ds.map (fun r => decide (r.region ∈ c.regions))

/-- Boolean mask `df['Category'].isin(categories)` (app.py line 70). -/
def categoryMask (ds : List OrderRecord) (c : Criteria) : List Bool :=
  ds.map (fun r => decide (r.category ∈ c.categories))

/-- Elementwise conjunction `mask1 & mask2` of two boolean masks. -/
def andMask (m₁ m₂ : List Bool) : List Bool :=
  List.zipWith and m₁ m₂

/-- `df[mask]`: boolean indexing keeps exactly the rows whose mask entry is
`True`, in their original order, producing a new frame (no mutation). -/
def booleanIndex : List OrderRecord → List Bool → List OrderRecord
  | [], _ => []
  | _ :: _, [] => []
  | r :: rs, b :: bs => if b then r :: booleanIndex rs bs else booleanIndex rs bs

/-- `filtered_df` (app.py lines 66-71): the dataset indexed by the
conjunction of the four masks. -/
def applyFilter (ds : List OrderRecord) (c : Criteria) : List OrderRecord :=
  booleanIndex ds
    (andMask (andMask (andMask (dateGeMask ds c) (dateLeMask ds c)) (regionMask ds c))
      (categoryMask ds c))

/-! ### The generator (`load_data`, app.py lines 27-46)

`load_data` builds columns of length `n_days * 100` (`n_days = 365`,
records-per-day = 100): `Date` is `np.tile(dates, 100)` of the
`pd.date_range` sequence, `Order_ID` is `range(1, n_days * 100 + 1)`, and
the remaining seven columns are drawn from the seeded numpy stream.  The
embedding generalises the two hard-coded constants to parameters
`nDays` / `recordsPerDay` (the spec's `generate` contract) and abstracts
the numpy draws as an input list of per-row draw results, constrained in
theorems by the ranges the numpy calls guarantee. -/

/-- The per-row outputs of the seven numpy draws in `load_data`. -/
structure DrawRow where
  customerId : Nat
  region : Region
  category : Category
  product : Product
  quantity : Nat
  unitPrice : ℚ
  discount : ℚ

/-- Fallback draw used only for out-of-range indexing (never reached when
the draw list has the column length, as in the source). -/
def defaultDraw : DrawRow :=
  { customerId := 1000, region := Region.NorthAmerica, category := Category.Electronics,
    product := Product.IPhone, quantity := 1, unitPrice := 10, discount := 0 }

/-- `pd.date_range(start, periods=nDays)`: `nDays` consecutive days from the start. -/
def datesList (start : Int) (nDays : Nat) : List Int :=
  List.map (fun d : Nat => start + (d : Int)) (List.range nDays)

/-- `np.tile(l, k)`: the list repeated `k` times as full blocks. -/
def tile (l : List Int) : Nat → List Int
  | 0 => []
  | k + 1 => l ++ tile l k

/-- The `Date` column of `load_data`: `np.tile(dates, 100)` generalised to
`recordsPerDay` repetitions. -/
def dateColumn (nDays recordsPerDay : Nat) (start : Int) : List Int :=
  tile (datesList start nDays) recordsPerDay

/-- Row `i` of the generated dataframe: date from the tiled date column,
`Order_ID = i + 1` (`range(1, n*rpd + 1)`), the seven drawn fields, and
`Revenue = Quantity * Unit_Price * (1 - Discount)` (app.py line 44). -/
def mkRecord (nDays recordsPerDay : Nat) (start : Int) (draws : List DrawRow)
    (i : Nat) : OrderRecord :=
  let d := draws.getD i defaultDraw
  { date := (dateColumn nDays recordsPerDay start).getD i 0
    orderId := i + 1
    customerId := d.customerId
    region := d.region
    category := d.category
    product := d.product
    quantity := d.quantity
    unitPrice := d.unitPrice
    discount := d.discount
    revenue := (d.quantity : ℚ) * d.unitPrice * (1 - d.discount) }

/-- `load_data` generalised: the dataframe as a list of `nDays * recordsPerDay`
rows.  The function is total — the source has no validation branch and no
error path, so every parameter choice produces a (possibly empty) dataset. -/
def generate (nDays recordsPerDay : Nat) (start : Int) (draws : List DrawRow) :
    List OrderRecord :=
  (List.range (nDays * recordsPerDay)).map (mkRecord nDays recordsPerDay start draws)

/-- Default row used only by `getD` indexing in theorem statements. -/
def defaultRecord : OrderRecord :=
  { date := 0, orderId := 0, customerId := 0, region := Region.NorthAmerica,
    category := Category.Electronics, product := Product.IPhone, quantity := 0,
    unitPrice := 0, discount := 0, revenue := 0 }

/-- An example draw row within all the numpy ranges, for the C6 witness. -/
def exDraw : DrawRow :=
  { customerId := 1200, region := Region.Asia, category := Category.Home,
    product := Product.Sofa, quantity := 2, unitPrice := 50, discount := 1 / 10 }

/-! ### Aggregates (app.py lines 75-78, 105, 111, 131-133)

The KPI reductions are pandas groupby/sum/idxmax pipelines.  `groupby`
with its default `sort=True` lists one group per distinct observed key, in
ascending key order — for the string-keyed groupbys that is lexicographic
order of the display strings, modelled by explicit rank functions.
`Series.idxmax` returns the label of the first occurrence of the maximum
and raises `ValueError` on an empty series; `Series.max` of an empty
series is NaN (modelled as `none`). -/

variable {κ : Type}

/-- `filtered_df['Revenue'].sum()` (app.py line 75). -/
def totalRevenue (v : List OrderRecord) : ℚ :=
  (v.map (fun r => r.revenue)).sum

/-- Lexicographic rank of the region's display string:
`"Asia" < "Europe" < "LATAM" < "North America"`, the order pandas
`groupby('Region')` sorts group keys in. -/
def regionRank : Region → Int
  | Region.Asia => 0
  | Region.Europe => 1
  | Region.LATAM => 2
  | Region.NorthAmerica => 3

/-- Lexicographic rank of the category's display string:
`"Books" < "Clothing" < "Electronics" < "Home"`. -/
def categoryRank : Category → Int
  | Category.Books => 0
  | Category.Clothing => 1
  | Category.Electronics => 2
  | Category.Home => 3

/-- The ascending-key order pandas groupby sorts group keys by, via a rank. -/
def rankLe (rank : κ → Int) : κ → κ → Prop := fun a b => rank a ≤ rank b

instance (rank : κ → Int) : DecidableRel (rankLe rank) := fun _ _ => Int.decLe _ _

/-- The group keys of a pandas groupby (`sort=True`, the default): the
distinct observed keys in ascending sorted order. -/
def groupKeys [DecidableEq κ] (rank : κ → Int) (ks : List κ) : List κ :=
  List.insertionSort (rankLe rank) ks.dedup

/-- The summed revenue of the records carrying key `k`. -/
def keySum [DecidableEq κ] (keyOf : OrderRecord → κ) (v : List OrderRecord) (k : κ) : ℚ :=
  ((v.filter (fun r => decide (keyOf r = k))).map (fun r => r.revenue)).sum

/-- `view.groupby(keyOf)['Revenue'].sum()`: one `(key, summed revenue)` pair
per observed key, in ascending key order. -/
def groupbySum [DecidableEq κ] (rank : κ → Int) (keyOf : OrderRecord → κ)
    (v : List OrderRecord) : List (κ × ℚ) :=
  (groupKeys rank (v.map keyOf)).map (fun k => (k, keySum keyOf v k))

/-- The error pandas raises when `idxmax` runs on an empty series
(`ValueError: attempt to get argmax of an empty sequence`). -/
inductive PdError where
  | valueError
deriving DecidableEq

/-- Scan keeping the running maximum, replacing it only on a strictly
greater value, so the first occurrence of the maximum wins — numpy argmax
behaviour. -/
def bestPair (b : κ × ℚ) : List (κ × ℚ) → κ × ℚ
  | [] => b
  | p :: t => bestPair (if b.2 < p.2 then p else b) t

/-- `Series.idxmax`: label of the first occurrence of the maximum value;
raises `ValueError` on an empty series. -/
def idxmax : List (κ × ℚ) → Except PdError κ
  | [] => Except.error PdError.valueError
  | p :: t => Except.ok (bestPair p t).1

/-- `Series.max`: the maximum value, or NaN (modelled `none`) when empty. -/
def seriesMax : List ℚ → Option ℚ
  | [] => none
  | a :: t => some (t.foldl max a)

/-- `filtered_df.groupby('Category')['Revenue'].sum().max()` (app.py line 131). -/
def topCategoryRevenue (v : List OrderRecord) : Option ℚ :=
  seriesMax ((groupbySum categoryRank (fun r => r.category) v).map (fun p => p.2))

/-- `filtered_df.groupby('Region')['Revenue'].sum().idxmax()` (app.py line 132). -/
def topRegionByRevenue (v : List OrderRecord) : Except PdError Region :=
  idxmax (groupbySum regionRank (fun r => r.region) v)

/-- `filtered_df.groupby(filtered_df['Date'].dt.date)['Revenue'].sum().idxmax()`
(app.py line 133). -/
def busiestDay (v : List OrderRecord) : Except PdError Int :=
  idxmax (groupbySum (fun d => d) (fun r => r.date) v)

/-- `filtered_df.groupby('Region')['Revenue'].sum()` (app.py line 111),
feeding the region bar chart. -/
def revenueByRegion (v : List OrderRecord) : List (Region × ℚ) :=
  groupbySum regionRank (fun r => r.region) v

/-- An example dataset row used by concrete witnesses. -/
def exRecord : OrderRecord :=
  { date := 3, orderId := 1, customerId := 1000, region := Region.Europe,
    category := Category.Books, product := Product.Novel, quantity := 2,
    unitPrice := 50, discount := 0, revenue := 100 }

/-- A criteria value with an empty region list, for the C2 witness. -/
def exEmptyRegionCriteria : Criteria :=
  { startDate := 0, endDate := 10, regions := [], categories := [Category.Books] }

/-- Two records with equal revenue, one in North America and one in Asia:
a revenue tie between the two regions, on two distinct days. -/
def exViewTie : List OrderRecord :=
  [{ exRecord with region := Region.NorthAmerica, revenue := 5 },
   { exRecord with orderId := 2, date := 4, region := Region.Asia, revenue := 5 }]

/-! ### CSV export (app.py lines 117, 120-121)

Line 117 displays the seven-column projection
`filtered_df[['Date', 'Region', 'Category', 'Product', 'Quantity',
'Unit_Price', 'Revenue']]` in the on-screen table, but the download button
serialises `filtered_df.to_csv(csv_buffer, index=False)` — the full frame.
Cells carry the typed values; the textual rendering of dates and floats is
presentation detail no claim depends on. -/

/-- The display string of a region (`np.random.choice` options, line 36). -/
def regionName : Region → String
  | Region.NorthAmerica => "North America"
  | Region.Europe => "Europe"
  | Region.Asia => "Asia"
  | Region.LATAM => "LATAM"

/-- The display string of a category (line 37). -/
def categoryName : Category → String
  | Category.Electronics => "Electronics"
  | Category.Clothing => "Clothing"
  | Category.Home => "Home"
  | Category.Books => "Books"

/-- The display string of a product (line 38). -/
def productName : Product → String
  | Product.IPhone => "iPhone"
  | Product.TShirt => "T-Shirt"
  | Product.Sofa => "Sofa"
  | Product.Novel => "Novel"

/-- One CSV cell, carrying the typed value it renders. -/
inductive CsvCell where
  | intCell (i : Int)
  | natCell (n : Nat)
  | strCell (s : String)
  | ratCell (q : ℚ)
deriving DecidableEq

/-- The header row `to_csv` writes: all ten dataframe columns in
construction order (lines 32-44), since line 121 exports `filtered_df`
itself, not the seven-column projection of line 117. -/
def csvHeader : List String :=
  ["Date", "Order_ID", "Customer_ID", "Region", "Category", "Product",
   "Quantity", "Unit_Price", "Discount", "Revenue"]

/-- The seven columns selected for the on-screen data table (line 117). -/
def displayColumns : List String :=
  ["Date", "Region", "Category", "Product", "Quantity", "Unit_Price", "Revenue"]

/-- The CSV data row of one record: its ten column values in header order. -/
def recToRow (r : OrderRecord) : List CsvCell :=
  [CsvCell.intCell r.date, CsvCell.natCell r.orderId, CsvCell.natCell r.customerId,
   CsvCell.strCell (regionName r.region), CsvCell.strCell (categoryName r.category),
   CsvCell.strCell (productName r.product), CsvCell.natCell r.quantity,
   CsvCell.ratCell r.unitPrice, CsvCell.ratCell r.discount, CsvCell.ratCell r.revenue]

/-- `filtered_df.to_csv(csv_buffer, index=False)` (lines 120-121): the
header row of column names, then one data row per record, no index column. -/
def exportCsv (v : List OrderRecord) : List String × List (List CsvCell) :=
  (csvHeader, v.map recToRow)

theorem booleanIndex_map (p : OrderRecord → Bool) :
    ∀ ds : List OrderRecord, booleanIndex ds (ds.map p) = ds.filter p := by
  intro ds
  induction ds with
  | nil => rfl
  | cons r rs ih =>
    simp only [List.map_cons, booleanIndex, List.filter_cons]
    by_cases h : p r <;> simp [h, ih]

theorem andMask_map (p q : OrderRecord → Bool) :
    ∀ ds : List OrderRecord, andMask (ds.map p) (ds.map q) = ds.map (fun r => p r && q r) := by
  intro ds
  induction ds with
  | nil => rfl
  | cons r rs ih => simp [andMask, List.zipWith] at ih ⊢

/-- The mask pipeline of lines 66-71 is exactly a single-pass filter by the
conjunction of the four predicates. -/
theorem applyFilter_eq_filter (ds : List OrderRecord) (c : Criteria) :
    applyFilter ds c = ds.filter (fun r =>
      decide (c.startDate ≤ r.date) && decide (r.date ≤ c.endDate) &&
      decide (r.region ∈ c.regions) && decide (r.category ∈ c.categories)) := by
  unfold applyFilter dateGeMask dateLeMask regionMask categoryMask
  rw [andMask_map, andMask_map, andMask_map, booleanIndex_map]

/-- C1: `apply(dataset, criteria)` returns exactly those records `r` with
`criteria.start_date ≤ r.date ≤ criteria.end_date`, `r.region ∈ criteria.region_set`
and `r.category ∈ criteria.category_set`, as a subsequence of the dataset
(original relative order preserved). -/
theorem applyFilter_exact (ds : List OrderRecord) (c : Criteria) :
    (applyFilter ds c).Sublist ds ∧
      applyFilter ds c = ds.filter (fun r =>
        decide (c.startDate ≤ r.date ∧ r.date ≤ c.endDate ∧
          r.region ∈ c.regions ∧ r.category ∈ c.categories)) := by
  constructor
  · rw [applyFilter_eq_filter]
    exact List.filter_sublist ds
  · rw [applyFilter_eq_filter]
    congr 1
    funext r
    simp [Bool.and_assoc]

/-- C2: empty region list, empty category list, or `start_date > end_date`
each degrade to an empty filtered view; `applyFilter` is a total function,
so filter application never raises for any criteria. -/
theorem applyFilter_degenerate (ds : List OrderRecord) (c : Criteria)
    (h : c.regions = [] ∨ c.categories = [] ∨ c.endDate < c.startDate) :
    applyFilter ds c = [] := by
  rw [applyFilter_eq_filter]
  rw [List.filter_eq_nil_iff]
  intro r _
  rcases h with h | h | h
  · simp [h]
  · simp [h]
  · simp only [Bool.and_eq_true, decide_eq_true_eq, not_and]
    intro hge hle
    omega

/-- C9: applying the same criteria twice yields the same view as applying
them once (the embedding is a pure function of the dataset, matching the
fact that pandas boolean indexing builds a new frame and mutates nothing). -/
theorem applyFilter_idempotent (ds : List OrderRecord) (c : Criteria) :
    applyFilter (applyFilter ds c) c = applyFilter ds c := by
  rw [applyFilter_eq_filter ds c, applyFilter_eq_filter]
  exact List.filter_eq_self.mpr (fun a ha => (List.mem_filter.mp ha).2)

theorem tile_length (l : List Int) : ∀ k, (tile l k).length = k * l.length := by
  intro k
  induction k with
  | zero => simp [tile]
  | succ k ih => simp [tile, ih, Nat.succ_mul, Nat.add_comm]

theorem tile_getD (l : List Int) (hl : l ≠ []) :
    ∀ (k i : Nat), i < k * l.length → (tile l k).getD i 0 = l.getD (i % l.length) 0 := by
  intro k
  induction k with
  | zero => intro i h; omega
  | succ k ih =>
    intro i h
    have hlen : 0 < l.length := List.length_pos.mpr hl
    by_cases hi : i < l.length
    · rw [tile, List.getD_append _ _ _ _ hi, Nat.mod_eq_of_lt hi]
    · push_neg at hi
      have hmul : (k + 1) * l.length = k * l.length + l.length := by ring
      have h2 : i - l.length < k * l.length := by omega
      rw [tile, List.getD_append_right _ _ _ _ hi, ih (i - l.length) h2]
      congr 1
      exact (Nat.mod_eq_sub_mod hi).symm

theorem generate_getD (nDays recordsPerDay : Nat) (start : Int) (draws : List DrawRow)
    (i : Nat) (h : i < nDays * recordsPerDay) :
    (generate nDays recordsPerDay start draws).getD i defaultRecord =
      mkRecord nDays recordsPerDay start draws i := by
  have hlen : i < ((List.range (nDays * recordsPerDay)).map
      (mkRecord nDays recordsPerDay start draws)).length := by simpa using h
  rw [generate, List.getD_eq_getElem _ _ hlen]
  simp

/-- C3: the date of the i-th generated record (0-based, generation order) is
`dates[i mod n_days]`, where `dates` is `start, start+1, ..., start+(n_days-1)`
and the date column is that block tiled `records_per_day` times
(`np.tile(dates, 100)`, app.py line 33). -/
theorem generate_date_tiling (nDays recordsPerDay : Nat) (start : Int)
    (draws : List DrawRow) (i : Nat) (h : i < nDays * recordsPerDay) :
    ((generate nDays recordsPerDay start draws).getD i defaultRecord).date =
      (datesList start nDays).getD (i % nDays) 0 := by
  rw [generate_getD nDays recordsPerDay start draws i h]
  show (dateColumn nDays recordsPerDay start).getD i 0 = _
  have hn : 0 < nDays := by
    rcases Nat.eq_zero_or_pos nDays with h0 | h0
    · subst h0; simp at h
    · exact h0
  have hlen : (datesList start nDays).length = nDays := by
    rw [datesList, List.length_map, List.length_range]
  have hne : datesList start nDays ≠ [] := by
    apply List.ne_nil_of_length_pos
    omega
  rw [dateColumn, tile_getD _ hne _ _ (by rw [hlen, Nat.mul_comm]; exact h), hlen]

/-- Witness for C3: with `nDays = 2`, `recordsPerDay = 3` and start day 5,
record 4 carries date `dates[4 mod 2] = dates[0] = 5`. -/
theorem generate_date_tiling_witness :
    ((generate 2 3 5 []).getD 4 defaultRecord).date = (datesList 5 2).getD (4 % 2) 0 ∧
      (datesList 5 2).getD (4 % 2) 0 = 5 :=
  ⟨generate_date_tiling 2 3 5 [] 4 (by decide), by decide⟩

/-- C4 counterexample: invoked with `n_days = 0` (and `records_per_day = 100`),
the generator does not fail — `load_data` has no validation branch, and no
`ConfigurationError` exists anywhere in the source — it simply produces the
empty dataset. -/
theorem generate_zero_days_no_error : generate 0 100 0 [] = [] := rfl

/-- C4 amended: the generator performs no parameter validation and raises no
`ConfigurationError`; with `n_days = 0` or `records_per_day = 0` it returns an
empty dataset rather than failing (in the repository both parameters are the
fixed positive constants 365 and 100). -/
theorem generate_no_validation (nDays recordsPerDay : Nat) (start : Int)
    (draws : List DrawRow) (h : nDays = 0 ∨ recordsPerDay = 0) :
    generate nDays recordsPerDay start draws = [] := by
  rcases h with h | h <;> simp [generate, h]

/-- Witness for the amended C4: `n_days = 0` yields the empty dataset. -/
theorem generate_no_validation_witness : generate 0 7 3 [] = [] :=
  generate_no_validation 0 7 3 [] (Or.inl rfl)

/-- C6: every generated record satisfies
`revenue = quantity * unit_price * (1 - discount)` (set once on app.py line 44,
derived from the other columns and never written again), and `revenue ≥ 0`
given the ranges the numpy draws guarantee (`quantity ∈ [1,10)`,
`unit_price ∈ [10,1000)`, `discount ∈ [0,0.3)`). -/
theorem generate_revenue_invariant (nDays recordsPerDay : Nat) (start : Int)
    (draws : List DrawRow)
    (hlen : draws.length = nDays * recordsPerDay)
    (hdraws : ∀ d ∈ draws, 1 ≤ d.quantity ∧ d.quantity < 10 ∧
      10 ≤ d.unitPrice ∧ d.unitPrice < 1000 ∧ 0 ≤ d.discount ∧ d.discount < 3 / 10) :
    ∀ r ∈ generate nDays recordsPerDay start draws,
      r.revenue = (r.quantity : ℚ) * r.unitPrice * (1 - r.discount) ∧ 0 ≤ r.revenue := by
  intro r hr
  rw [generate, List.mem_map] at hr
  obtain ⟨i, hi, rfl⟩ := hr
  rw [List.mem_range] at hi
  have hilen : i < draws.length := by rw [hlen]; exact hi
  have hd : draws.getD i defaultDraw ∈ draws := by
    rw [List.getD_eq_getElem _ _ hilen]
    exact List.getElem_mem _
  obtain ⟨hq1, hq2, hp1, hp2, hd0, hd3⟩ := hdraws _ hd
  refine ⟨rfl, ?_⟩
  show (0 : ℚ) ≤ ((draws.getD i defaultDraw).quantity : ℚ) *
    (draws.getD i defaultDraw).unitPrice * (1 - (draws.getD i defaultDraw).discount)
  apply mul_nonneg (mul_nonneg (Nat.cast_nonneg _) (by linarith))
  linarith

/-- Witness for C6: a one-record generation with in-range draws; the record's
revenue is `2 * 50 * (1 - 1/10) = 90 ≥ 0`. -/
theorem generate_revenue_invariant_witness :
    ((generate 1 1 0 [exDraw]).getD 0 defaultRecord).revenue =
      (((generate 1 1 0 [exDraw]).getD 0 defaultRecord).quantity : ℚ) *
        ((generate 1 1 0 [exDraw]).getD 0 defaultRecord).unitPrice *
        (1 - ((generate 1 1 0 [exDraw]).getD 0 defaultRecord).discount) ∧
      0 ≤ ((generate 1 1 0 [exDraw]).getD 0 defaultRecord).revenue :=
  generate_revenue_invariant 1 1 0 [exDraw] rfl
    (by
      intro d hd
      rw [List.mem_singleton] at hd
      subst hd
      refine ⟨?_, ?_, ?_, ?_, ?_, ?_⟩ <;> norm_num [exDraw])
    _
    (by
      rw [List.getD_eq_getElem _ _ (by simp [generate])]
      exact List.getElem_mem _)

theorem bestPair_mem : ∀ (l : List (κ × ℚ)) (b : κ × ℚ), bestPair b l ∈ b :: l := by
  intro l
  induction l with
  | nil => intro b; exact List.mem_singleton_self b
  | cons p t ih =>
    intro b
    show bestPair (if b.2 < p.2 then p else b) t ∈ b :: p :: t
    rcases List.mem_cons.mp (ih (if b.2 < p.2 then p else b)) with h | h
    · rw [h]
      by_cases hbp : b.2 < p.2
      · simp [hbp]
      · simp [hbp]
    · exact List.mem_cons_of_mem b (List.mem_cons_of_mem p h)

theorem bestPair_ge :
    ∀ (l : List (κ × ℚ)) (b : κ × ℚ), ∀ q ∈ b :: l, q.2 ≤ (bestPair b l).2 := by
  intro l
  induction l with
  | nil =>
    intro b q hq
    rw [List.mem_singleton] at hq
    rw [hq]
    exact le_refl _
  | cons p t ih =>
    intro b q hq
    show q.2 ≤ (bestPair (if b.2 < p.2 then p else b) t).2
    have hb : b.2 ≤ (if b.2 < p.2 then p else b).2 := by
      by_cases hbp : b.2 < p.2
      · simp only [if_pos hbp]; linarith
      · simp only [if_neg hbp]; exact le_refl _
    have hp : p.2 ≤ (if b.2 < p.2 then p else b).2 := by
      by_cases hbp : b.2 < p.2
      · simp only [if_pos hbp]; exact le_refl _
      · simp only [if_neg hbp]; linarith [not_lt.mp hbp]
    have hb' : (if b.2 < p.2 then p else b).2 ≤ (bestPair (if b.2 < p.2 then p else b) t).2 :=
      ih _ _ (List.mem_cons_self _ _)
    rcases List.mem_cons.mp hq with h | h
    · rw [h]; linarith
    · rcases List.mem_cons.mp h with h2 | h2
      · rw [h2]; linarith
      · exact ih _ q (List.mem_cons_of_mem _ h2)

theorem bestPair_of_le :
    ∀ (l : List (κ × ℚ)) (b : κ × ℚ), (∀ q ∈ l, q.2 ≤ b.2) → bestPair b l = b := by
  intro l
  induction l with
  | nil => intro b _; rfl
  | cons p t ih =>
    intro b h
    have hp : p.2 ≤ b.2 := h p (List.mem_cons_self _ _)
    show bestPair (if b.2 < p.2 then p else b) t = b
    rw [if_neg (not_lt.mpr hp)]
    exact ih b (fun q hq => h q (List.mem_cons_of_mem _ hq))

theorem bestPair_first (rank : κ → Int) :
    ∀ (l : List (κ × ℚ)) (b : κ × ℚ),
      ((b :: l).map Prod.fst).Pairwise (fun a c => rank a < rank c) →
      ∀ q ∈ b :: l, q.2 = (bestPair b l).2 → rank (bestPair b l).1 ≤ rank q.1 := by
  intro l
  induction l with
  | nil =>
    intro b _ q hq _
    rw [List.mem_singleton] at hq
    rw [hq]
    exact le_refl _
  | cons p t ih =>
    intro b hpw q hq hq2
    rw [List.map_cons, List.map_cons, List.pairwise_cons] at hpw
    obtain ⟨h1, hpw1⟩ := hpw
    rw [List.pairwise_cons] at hpw1
    obtain ⟨h2, h3⟩ := hpw1
    by_cases hbp : b.2 < p.2
    · have hb' : bestPair b (p :: t) = bestPair p t := by
        show bestPair (if b.2 < p.2 then p else b) t = _
        rw [if_pos hbp]
      rw [hb'] at hq2 ⊢
      have hpw' : ((p :: t).map Prod.fst).Pairwise (fun a c => rank a < rank c) := by
        rw [List.map_cons, List.pairwise_cons]
        exact ⟨h2, h3⟩
      rcases List.mem_cons.mp hq with h | h
      · exfalso
        have hple : p.2 ≤ (bestPair p t).2 := bestPair_ge t p p (List.mem_cons_self _ _)
        rw [h] at hq2
        linarith
      · exact ih p hpw' q h hq2
    · have hb' : bestPair b (p :: t) = bestPair b t := by
        show bestPair (if b.2 < p.2 then p else b) t = _
        rw [if_neg hbp]
      rw [hb'] at hq2 ⊢
      have hpw' : ((b :: t).map Prod.fst).Pairwise (fun a c => rank a < rank c) := by
        rw [List.map_cons, List.pairwise_cons]
        exact ⟨fun x hx => h1 x (List.mem_cons_of_mem _ hx), h3⟩
      rcases List.mem_cons.mp hq with h | h
      · rw [h] at hq2 ⊢
        exact ih b hpw' b (List.mem_cons_self _ _) hq2
      · rcases List.mem_cons.mp h with h4 | h4
        · push_neg at hbp
          have hble : b.2 ≤ (bestPair b t).2 := bestPair_ge t b b (List.mem_cons_self _ _)
          have hple : (bestPair b t).2 ≤ b.2 := by rw [h4] at hq2; linarith
          have hAll : ∀ x ∈ t, x.2 ≤ b.2 := by
            intro x hx
            have := bestPair_ge t b x (List.mem_cons_of_mem _ hx)
            linarith
          rw [bestPair_of_le t b hAll, h4]
          exact le_of_lt (h1 p.1 (List.mem_cons_self _ _))
        · exact ih b hpw' q (List.mem_cons_of_mem _ h4) hq2

/-- `idxmax` on a nonempty series whose labels are strictly rank-sorted
returns a label attaining the maximum value, and among tied labels the one
of least rank (the first in the series). -/
theorem idxmax_spec (rank : κ → Int) (s : List (κ × ℚ)) (hs : s ≠ [])
    (hpw : (s.map Prod.fst).Pairwise (fun a c => rank a < rank c)) :
    ∃ p ∈ s, idxmax s = Except.ok p.1 ∧ (∀ q ∈ s, q.2 ≤ p.2) ∧
      ∀ q ∈ s, q.2 = p.2 → rank p.1 ≤ rank q.1 := by
  match s with
  | [] => exact absurd rfl hs
  | p :: t =>
    exact ⟨bestPair p t, bestPair_mem t p, rfl, bestPair_ge t p, bestPair_first rank t p hpw⟩

theorem groupKeys_mem [DecidableEq κ] (rank : κ → Int) (ks : List κ) (k : κ) :
    k ∈ groupKeys rank ks ↔ k ∈ ks := by
  rw [groupKeys, List.mem_insertionSort, List.mem_dedup]

theorem groupKeys_nodup [DecidableEq κ] (rank : κ → Int) (ks : List κ) :
    (groupKeys rank ks).Nodup := by
  rw [groupKeys]
  exact ((List.perm_insertionSort (rankLe rank) ks.dedup).nodup_iff).mpr (List.nodup_dedup ks)

theorem groupKeys_eq_nil_iff [DecidableEq κ] (rank : κ → Int) (ks : List κ) :
    groupKeys rank ks = [] ↔ ks = [] := by
  constructor
  · intro h
    have hp := List.perm_insertionSort (rankLe rank) ks.dedup
    rw [groupKeys] at h
    rw [h] at hp
    have : ks.dedup = [] := List.eq_nil_of_length_eq_zero (hp.length_eq.symm.trans rfl)
    exact (List.dedup_eq_nil ks).mp this
  · intro h
    subst h
    rfl

theorem groupKeys_sorted [DecidableEq κ] (rank : κ → Int)
    (hinj : Function.Injective rank) (ks : List κ) :
    (groupKeys rank ks).Pairwise (fun a b => rank a < rank b) := by
  haveI : IsTrans κ (rankLe rank) := ⟨fun _ _ _ hab hbc => le_trans hab hbc⟩
  haveI : IsTotal κ (rankLe rank) := ⟨fun a b => Int.le_total _ _⟩
  have hsorted : (groupKeys rank ks).Pairwise (rankLe rank) :=
    List.sorted_insertionSort (rankLe rank) ks.dedup
  have hnd : (groupKeys rank ks).Pairwise (fun a b => a ≠ b) := groupKeys_nodup rank ks
  exact (hsorted.and hnd).imp (fun h => lt_of_le_of_ne h.1 (fun he => h.2 (hinj he)))

theorem regionRank_injective : Function.Injective regionRank := by
  intro a b h
  cases a <;> cases b <;> first | rfl | simp [regionRank] at h

theorem groupbySum_map_fst [DecidableEq κ] (rank : κ → Int) (keyOf : OrderRecord → κ)
    (v : List OrderRecord) :
    (groupbySum rank keyOf v).map Prod.fst = groupKeys rank (v.map keyOf) := by
  rw [groupbySum, List.map_map]
  exact List.map_id _

theorem groupbySum_eq_nil_iff [DecidableEq κ] (rank : κ → Int) (keyOf : OrderRecord → κ)
    (v : List OrderRecord) :
    groupbySum rank keyOf v = [] ↔ v = [] := by
  rw [groupbySum, List.map_eq_nil_iff, groupKeys_eq_nil_iff, List.map_eq_nil_iff]

/-- The groupby-idxmax pipeline on a nonempty view returns an observed key
whose summed revenue is maximal among all observed keys, and of least rank
among the tied maximal keys. -/
theorem groupIdxmax_spec [DecidableEq κ] (rank : κ → Int)
    (hinj : Function.Injective rank) (keyOf : OrderRecord → κ)
    (v : List OrderRecord) (hv : v ≠ []) :
    ∃ k, idxmax (groupbySum rank keyOf v) = Except.ok k ∧ k ∈ v.map keyOf ∧
      (∀ k2 ∈ v.map keyOf, keySum keyOf v k2 ≤ keySum keyOf v k) ∧
      ∀ k2 ∈ v.map keyOf, keySum keyOf v k2 = keySum keyOf v k → rank k ≤ rank k2 := by
  have hs : groupbySum rank keyOf v ≠ [] := by
    rw [Ne, groupbySum_eq_nil_iff]
    exact hv
  have hpw : ((groupbySum rank keyOf v).map Prod.fst).Pairwise
      (fun a c => rank a < rank c) := by
    rw [groupbySum_map_fst]
    exact groupKeys_sorted rank hinj _
  obtain ⟨p, hmem, hok, hge, hfirst⟩ := idxmax_spec rank _ hs hpw
  rw [groupbySum, List.mem_map] at hmem
  obtain ⟨k, hk, hpk⟩ := hmem
  have hp1 : p.1 = k := by rw [← hpk]
  have hp2 : p.2 = keySum keyOf v k := by rw [← hpk]
  have hkmem : k ∈ v.map keyOf := (groupKeys_mem rank _ k).mp hk
  have pairMem : ∀ k2 ∈ v.map keyOf, (k2, keySum keyOf v k2) ∈ groupbySum rank keyOf v := by
    intro k2 hk2
    rw [groupbySum, List.mem_map]
    exact ⟨k2, (groupKeys_mem rank _ k2).mpr hk2, rfl⟩
  refine ⟨k, hp1 ▸ hok, hkmem, ?_, ?_⟩
  · intro k2 hk2
    have := hge _ (pairMem k2 hk2)
    rw [hp2] at this
    exact this
  · intro k2 hk2 heq
    have := hfirst _ (pairMem k2 hk2) (by rw [hp2]; exact heq)
    rw [hp1] at this
    exact this

theorem keySum_cons [DecidableEq κ] (keyOf : OrderRecord → κ) (r : OrderRecord)
    (t : List OrderRecord) (k : κ) :
    keySum keyOf (r :: t) k =
      if keyOf r = k then r.revenue + keySum keyOf t k else keySum keyOf t k := by
  rw [keySum, List.filter_cons]
  by_cases h : keyOf r = k
  · simp [h, keySum]
  · simp [h, keySum]

theorem sum_map_single [DecidableEq κ] (c : ℚ) (g : κ → ℚ) (k : κ) :
    ∀ ks : List κ, ks.Nodup → k ∈ ks →
      (ks.map (fun x => if k = x then c + g x else g x)).sum = c + (ks.map g).sum := by
  intro ks
  induction ks with
  | nil => intro _ h; cases h
  | cons a t ih =>
    intro hnd hk
    rw [List.nodup_cons] at hnd
    rcases List.mem_cons.mp hk with rfl | hk2
    · rw [List.map_cons, List.map_cons, if_pos rfl, List.sum_cons, List.sum_cons]
      have ht : t.map (fun x => if k = x then c + g x else g x) = t.map g := by
        apply List.map_congr_left
        intro x hx
        rw [if_neg]
        intro he
        subst he
        exact hnd.1 hx
      rw [ht]
      ring
    · rw [List.map_cons, List.map_cons, List.sum_cons, List.sum_cons, ih hnd.2 hk2]
      have ha : (if k = a then c + g a else g a) = g a := by
        rw [if_neg]
        intro he
        subst he
        exact hnd.1 hk2
      rw [ha]
      ring

/-- Summing per-key group sums over any duplicate-free key list covering the
view's keys gives the total revenue: grouping partitions the view. -/
theorem grouped_total [DecidableEq κ] (keyOf : OrderRecord → κ) :
    ∀ (v : List OrderRecord) (ks : List κ), ks.Nodup → (∀ r ∈ v, keyOf r ∈ ks) →
      (ks.map (keySum keyOf v)).sum = totalRevenue v := by
  intro v
  induction v with
  | nil =>
    intro ks _ _
    have hz : List.map (keySum keyOf []) ks = ks.map (fun _ => (0 : ℚ)) := by
      apply List.map_congr_left
      intro x _
      simp [keySum]
    rw [totalRevenue, hz]
    simp
  | cons r t ih =>
    intro ks hnd hcov
    have hkey : keyOf r ∈ ks := hcov r (List.mem_cons_self _ _)
    have hcov2 : ∀ x ∈ t, keyOf x ∈ ks := fun x hx => hcov x (List.mem_cons_of_mem _ hx)
    have hmap : ks.map (keySum keyOf (r :: t)) =
        ks.map (fun x => if keyOf r = x then r.revenue + keySum keyOf t x
          else keySum keyOf t x) := by
      apply List.map_congr_left
      intro x _
      rw [keySum_cons]
    rw [hmap, sum_map_single r.revenue (keySum keyOf t) (keyOf r) ks hnd hkey,
      ih ks hnd hcov2]
    simp [totalRevenue]

theorem seriesMax_eq_none_iff (l : List ℚ) : seriesMax l = none ↔ l = [] := by
  cases l <;> simp [seriesMax]

theorem idxmax_error_iff (s : List (κ × ℚ)) (e : PdError) :
    idxmax s = Except.error e ↔ s = [] := by
  cases s <;> simp [idxmax]

/-- C5 counterexample: on the empty view the three bottom metrics are not
consistent with each other and use no `EmptyViewError` (no such class exists
in the source): `top_category` revenue returns the NaN sentinel (`Series.max`
of an empty series, modelled `none`) while the two `idxmax` metrics raise
pandas `ValueError`. -/
theorem emptyView_mixed_failure :
    topCategoryRevenue [] = none ∧
      topRegionByRevenue [] = Except.error PdError.valueError ∧
      busiestDay [] = Except.error PdError.valueError :=
  ⟨rfl, rfl, rfl⟩

/-- C5 amended: on the empty view, `top_category`'s revenue metric yields the
NaN sentinel (`Series.max` of an empty series) while `top_region_by_revenue`
and `busiest_day` raise pandas `ValueError` (from `idxmax`); no
`EmptyViewError` and no single consistent documented sentinel exists.  Each
of the three degenerates in its own way exactly when the view is empty. -/
theorem aggregates_empty_iff (v : List OrderRecord) :
    (topCategoryRevenue v = none ↔ v = []) ∧
      ((∃ e, topRegionByRevenue v = Except.error e) ↔ v = []) ∧
      ((∃ e, busiestDay v = Except.error e) ↔ v = []) := by
  refine ⟨?_, ?_, ?_⟩
  · rw [topCategoryRevenue, seriesMax_eq_none_iff, List.map_eq_nil_iff,
      groupbySum_eq_nil_iff]
  · constructor
    · rintro ⟨e, he⟩
      exact (groupbySum_eq_nil_iff _ _ _).mp ((idxmax_error_iff _ e).mp he)
    · intro h
      subst h
      exact ⟨PdError.valueError, rfl⟩
  · constructor
    · rintro ⟨e, he⟩
      exact (groupbySum_eq_nil_iff _ _ _).mp ((idxmax_error_iff _ e).mp he)
    · intro h
      subst h
      exact ⟨PdError.valueError, rfl⟩

/-- C7 (amended): `top_region_by_revenue` and `busiest_day` are pure
functions of the view, hence deterministic; on ties they return the first
tied key in pandas' sorted group-key order — lexicographic display-string
order for regions (Asia, Europe, LATAM, North America) and ascending
calendar order for days — not the closed-set declaration order. -/
theorem argmax_tie_break_sorted_order (v : List OrderRecord) (hv : v ≠ []) :
    (∃ r, topRegionByRevenue v = Except.ok r ∧ r ∈ v.map (fun x => x.region) ∧
      (∀ r2 ∈ v.map (fun x => x.region),
        keySum (fun x => x.region) v r2 ≤ keySum (fun x => x.region) v r) ∧
      ∀ r2 ∈ v.map (fun x => x.region),
        keySum (fun x => x.region) v r2 = keySum (fun x => x.region) v r →
          regionRank r ≤ regionRank r2) ∧
    ∃ d, busiestDay v = Except.ok d ∧ d ∈ v.map (fun x => x.date) ∧
      (∀ d2 ∈ v.map (fun x => x.date),
        keySum (fun x => x.date) v d2 ≤ keySum (fun x => x.date) v d) ∧
      ∀ d2 ∈ v.map (fun x => x.date),
        keySum (fun x => x.date) v d2 = keySum (fun x => x.date) v d → d ≤ d2 :=
  ⟨groupIdxmax_spec regionRank regionRank_injective (fun x => x.region) v hv,
   groupIdxmax_spec (fun d => d) (fun _ _ h => h) (fun x => x.date) v hv⟩

/-- C10: the region chart's per-region sums always add up to the
total-revenue KPI — grouping by region partitions the filtered view. -/
theorem revenueByRegion_sum_eq_total (v : List OrderRecord) :
    ((revenueByRegion v).map (fun p => p.2)).sum = totalRevenue v := by
  rw [revenueByRegion, groupbySum, List.map_map]
  have hcomp : ((fun p : Region × ℚ => p.2) ∘ fun k => (k, keySum (fun r => r.region) v k)) =
      keySum (fun r => r.region) v := rfl
  rw [hcomp]
  exact grouped_total _ v _ (groupKeys_nodup _ _)
    (fun r hr => (groupKeys_mem _ _ _).mpr (List.mem_map_of_mem _ hr))

/-- Witness for C2: a criteria with an empty region list yields the empty view. -/
theorem applyFilter_degenerate_witness :
    applyFilter [exRecord] exEmptyRegionCriteria = [] :=
  applyFilter_degenerate [exRecord] exEmptyRegionCriteria (Or.inl rfl)

/-- C7 counterexample: on a revenue tie between North America and Asia the
code returns Asia — the first key in pandas' lexicographically sorted group
order — not North America, the first in the closed-set declaration order
(North America, Europe, Asia, LATAM) the claim pins. -/
theorem topRegion_tie_not_declaration_order :
    topRegionByRevenue exViewTie = Except.ok Region.Asia ∧
      Region.Asia ≠ Region.NorthAmerica := by
  constructor
  · have h1 : groupbySum regionRank (fun r => r.region) exViewTie =
        [(Region.Asia, keySum (fun r => r.region) exViewTie Region.Asia),
         (Region.NorthAmerica, keySum (fun r => r.region) exViewTie Region.NorthAmerica)] :=
      rfl
    have hA : keySum (fun r => r.region) exViewTie Region.Asia = 5 := by
      simp [keySum, exViewTie, exRecord]
    have hN : keySum (fun r => r.region) exViewTie Region.NorthAmerica = 5 := by
      simp [keySum, exViewTie, exRecord]
    show idxmax (groupbySum regionRank (fun r => r.region) exViewTie) = Except.ok Region.Asia
    rw [h1, hA, hN]
    show Except.ok (bestPair (Region.Asia, (5 : ℚ)) [(Region.NorthAmerica, (5 : ℚ))]).1 =
      Except.ok Region.Asia
    simp [bestPair]
  · intro h
    cases h

/-- Witness for the amended C7 at the tie view: both argmax metrics succeed
and return the sorted-order-first key among the tied maxima. -/
theorem argmax_tie_break_sorted_order_witness :
    (∃ r, topRegionByRevenue exViewTie = Except.ok r ∧
      r ∈ exViewTie.map (fun x => x.region) ∧
      (∀ r2 ∈ exViewTie.map (fun x => x.region),
        keySum (fun x => x.region) exViewTie r2 ≤ keySum (fun x => x.region) exViewTie r) ∧
      ∀ r2 ∈ exViewTie.map (fun x => x.region),
        keySum (fun x => x.region) exViewTie r2 = keySum (fun x => x.region) exViewTie r →
          regionRank r ≤ regionRank r2) ∧
    ∃ d, busiestDay exViewTie = Except.ok d ∧ d ∈ exViewTie.map (fun x => x.date) ∧
      (∀ d2 ∈ exViewTie.map (fun x => x.date),
        keySum (fun x => x.date) exViewTie d2 ≤ keySum (fun x => x.date) exViewTie d) ∧
      ∀ d2 ∈ exViewTie.map (fun x => x.date),
        keySum (fun x => x.date) exViewTie d2 = keySum (fun x => x.date) exViewTie d →
          d ≤ d2 :=
  argmax_tie_break_sorted_order exViewTie (List.cons_ne_nil _ _)

/-- C8 counterexample: the exported header is not the seven-field set
`{date, region, category, product, quantity, unit_price, revenue}` the
claim requires — the export contains `Order_ID`, `Customer_ID` and
`Discount` as well, because line 121 serialises the full `filtered_df`. -/
theorem exportCsv_not_seven_columns :
    (exportCsv []).1 ≠ displayColumns ∧
      "Order_ID" ∈ (exportCsv []).1 ∧ "Customer_ID" ∈ (exportCsv []).1 ∧
      "Discount" ∈ (exportCsv []).1 ∧ "Customer_ID" ∉ displayColumns := by
  refine ⟨?_, ?_, ?_, ?_, ?_⟩
  · intro h
    have hlen := congrArg List.length h
    simp [exportCsv, csvHeader, displayColumns] at hlen
  · simp [exportCsv, csvHeader]
  · simp [exportCsv, csvHeader]
  · simp [exportCsv, csvHeader]
  · simp [displayColumns]

/-- C8 amended: the export is comma-separated text with a header row
matching the dataframe's field names and exactly one data row per record of
the filtered view, each row of header width — but it carries all ten
dataset fields (Date, Order_ID, Customer_ID, Region, Category, Product,
Quantity, Unit_Price, Discount, Revenue); the seven-field restriction of
the claim applies only to the on-screen table of line 117, not the export. -/
theorem exportCsv_shape (v : List OrderRecord) :
    (exportCsv v).1 = csvHeader ∧ (exportCsv v).2.length = v.length ∧
      ∀ row ∈ (exportCsv v).2, row.length = csvHeader.length := by
  refine ⟨rfl, by simp [exportCsv], ?_⟩
  intro row hrow
  rw [exportCsv] at hrow
  obtain ⟨r, _, rfl⟩ := List.mem_map.mp hrow
  rfl

end RetailDashboard
